import Mathlib

/-
Verification of the SF position sync pipeline.

This file shallowly embeds the pipeline's source files:
  * the date/value formatter and SQL generator (sqlGenerator module):
    parseSFDate, escapeSqlString, formatSqlValue, transformRecord,
    generateOracleInsert, generatePostgresInsert, generateInsertIfNotExists,
    generateSqlHeader, generateSqlFooter;
  * the API service (sfApiService.js): fetchPositions (retry loop with
    exponential backoff), filterByDepartment;
  * the sync orchestrator (index.js): the pagination loop of syncPositions and
    its file-writing tail;
  * the static configuration (config/index.js): fieldMapping.

Modelling conventions:
  * JS values flowing through records are modelled by the Value type
    (strings, integer numbers, null); absence of a key is Option.none.
  * The host's Date.parse fallback (for inputs that are not wrapped-epoch
    strings) is an external collaborator and is passed in as an explicit
    function argument (dateParse); all claims either fix it or quantify
    over it.
  * A thrown JS exception is modelled as Except.error carrying the error
    text; ordinary returns are Except.ok.
  * Date.prototype.toISOString (composed with the source's two .replace
    calls that turn the T separator into a space and strip the Z) is
    embedded by isoOfMillis, implementing the ECMA-262 proleptic-Gregorian
    conversion of an epoch-millisecond time value.
  * The unanchored regex /\/Date\((-?\d+)([+-]\d+)?\)\// is embedded by
    findSF: a leftmost search that at each position matches the literal
    "/Date(", an optional minus sign, a maximal nonempty digit run, an
    optional sign-plus-digit-run offset group, and the literal ")/".
-/

namespace SFSync

/-- JavaScript-like record values: strings, (integer) numbers, and null. -/
inductive Value where
  | vStr (s : String)
  | vNum (n : Int)
  | vNull
deriving DecidableEq, Repr

/-- An API record: a JS object, modelled as an association list from field
name to value (JSON objects have unique keys; lookup takes the first hit). -/
abbrev ApiRecord := List (String × Value)

/-! Calendar arithmetic backing Date.prototype.toISOString (ECMA-262). -/

def msPerDay : Int := 86400000

/-- Proleptic-Gregorian leap-year rule (ECMA-262 DaysInYear). -/
def isLeap (y : Int) : Bool :=
  (y % 4 == 0 && y % 100 != 0) || (y % 400 == 0)

def daysInYear (y : Int) : Nat := if isLeap y then 366 else 365

/-- ECMA-262 DayFromYear: day number (relative to 1970-01-01) of the first
day of year y. Divisions are floor divisions (divisors positive, so ediv). -/
def dayFromYear (y : Int) : Int :=
  365 * (y - 1970) + (y - 1969) / 4 - (y - 1901) / 100 + (y - 1601) / 400

/-- Walk forward from year y while the remaining day count d does not fit in
the current year; returns the year and the day-of-year. -/
def yearOfDayUp (y : Int) (d : Nat) : Int × Nat :=
  if h : d < daysInYear y then (y, d)
  else yearOfDayUp (y + 1) (d - daysInYear y)
termination_by d
decreasing_by
  have h365 : 365 ≤ daysInYear y := by
    simp only [daysInYear]; split <;> omega
  omega

/-- Walk backward from year y while the day count d is negative; returns the
year and the (now nonnegative) day-of-year. -/
def yearOfDayDown (y : Int) (d : Int) : Int × Nat :=
  if h : d < 0 then yearOfDayDown (y - 1) (d + daysInYear (y - 1))
  else (y, d.toNat)
termination_by (-d).toNat
decreasing_by
  have h365 : 365 ≤ daysInYear (y - 1) := by
    simp only [daysInYear]; split <;> omega
  omega

/-- Year and day-of-year of an epoch day number (ECMA-262 YearFromTime and
DayWithinYear). -/
def yearAndDoy (day : Int) : Int × Nat :=
  if 0 ≤ day then yearOfDayUp 1970 day.toNat else yearOfDayDown 1970 day

def monthLengths (leap : Bool) : List Nat :=
  [31, if leap then 29 else 28, 31, 30, 31, 30, 31, 31, 30, 31, 30, 31]

/-- Month (1-based) and day-of-month (1-based) from a day-of-year, given the
month-length table (ECMA-262 MonthFromTime and DateFromTime). -/
def monthFromDoy : List Nat → Nat → Nat → Nat × Nat
  | [], m, d => (m, d + 1)
  | len :: rest, m, d =>
    if d < len then (m, d + 1) else monthFromDoy rest (m + 1) (d - len)

/-- Days in the year strictly before month m (1-based). -/
def daysBeforeMonth (leap : Bool) (m : Nat) : Nat :=
  ((monthLengths leap).take (m - 1)).sum

/-! Decimal digit rendering. -/

def dChar (n : Nat) : Char := Char.ofNat (48 + n)

def digitVal (c : Char) : Nat := c.toNat - 48

def isDigitCh (c : Char) : Bool := 48 ≤ c.toNat && c.toNat ≤ 57

def pad2 (n : Nat) : List Char := [dChar (n / 10), dChar (n % 10)]

def pad3 (n : Nat) : List Char :=
  [dChar (n / 100), dChar (n / 10 % 10), dChar (n % 10)]

def pad4 (n : Nat) : List Char :=
  [dChar (n / 1000), dChar (n / 100 % 10), dChar (n / 10 % 10), dChar (n % 10)]

def pad6 (n : Nat) : List Char :=
  [dChar (n / 100000), dChar (n / 10000 % 10), dChar (n / 1000 % 10),
   dChar (n / 100 % 10), dChar (n / 10 % 10), dChar (n % 10)]

/-- Year rendering of toISOString: four digits for 0..9999, otherwise the
expanded-year form, a sign followed by six digits (ECMA-262). -/
def yearChars (y : Int) : List Char :=
  if 0 ≤ y ∧ y ≤ 9999 then pad4 y.toNat
  else if y < 0 then '-' :: pad6 (-y).toNat
  else '+' :: pad6 y.toNat

/-- Time-of-day rendering HH:MM:SS.sss from the milliseconds within the day. -/
def timeChars (msOfDay : Nat) : List Char :=
  pad2 (msOfDay / 3600000) ++ ':' :: pad2 (msOfDay / 60000 % 60)
    ++ ':' :: pad2 (msOfDay / 1000 % 60) ++ '.' :: pad3 (msOfDay % 1000)

/-- Embedding of new Date(t).toISOString().replace("T", " ").replace("Z", ""):
the canonical space-separated timestamp string of an epoch-millisecond value. -/
def isoOfMillis (t : Int) : String :=
  let day := t / msPerDay
  let msOfDay := (t % msPerDay).toNat
  let yd := yearAndDoy day
  let md := monthFromDoy (monthLengths (isLeap yd.1)) 1 yd.2
  String.mk (yearChars yd.1 ++ '-' :: pad2 md.1 ++ '-' :: pad2 md.2
    ++ ' ' :: timeChars msOfDay)

/-! Parsing a canonical timestamp string back to its epoch-millisecond value
(the measuring device for the round-trip property of the spec). -/

def val2 (a b : Char) : Nat := 10 * digitVal a + digitVal b

def val3 (a b c : Char) : Nat := 100 * digitVal a + 10 * digitVal b + digitVal c

def val4 (a b c d : Char) : Nat :=
  1000 * digitVal a + 100 * digitVal b + 10 * digitVal c + digitVal d

def val6 (a b c d e f : Char) : Nat :=
  100000 * digitVal a + 10000 * digitVal b + 1000 * digitVal c
    + 100 * digitVal d + 10 * digitVal e + digitVal f

/-- Epoch milliseconds of broken-down UTC date/time parts. -/
def millisOfParts (y : Int) (mo dd hh mi ss ms : Nat) : Int :=
  (dayFromYear y + (daysBeforeMonth (isLeap y) mo : Int) + ((dd : Int) - 1))
      * msPerDay
    + ((hh * 3600000 + mi * 60000 + ss * 1000 + ms : Nat) : Int)

def allDigits (l : List Char) : Bool := l.all isDigitCh

/-- Field extraction from a canonical timestamp string, fixed-width: either
the 23-character form YYYY-MM-DD HH:MM:SS.sss or the 26-character
expanded-year form with a leading sign and six year digits. -/
def canonParts : List Char → Option (Int × Nat × Nat × Nat × Nat × Nat × Nat)
  | [y1, y2, y3, y4, '-', o1, o2, '-', d1, d2, ' ',
     h1, h2, ':', m1, m2, ':', s1, s2, '.', f1, f2, f3] =>
    if allDigits [y1, y2, y3, y4, o1, o2, d1, d2, h1, h2, m1, m2, s1, s2,
                  f1, f2, f3] then
      some ((val4 y1 y2 y3 y4 : Int), val2 o1 o2, val2 d1 d2, val2 h1 h2,
            val2 m1 m2, val2 s1 s2, val3 f1 f2 f3)
    else none
  | [sg, y1, y2, y3, y4, y5, y6, '-', o1, o2, '-', d1, d2, ' ',
     h1, h2, ':', m1, m2, ':', s1, s2, '.', f1, f2, f3] =>
    if allDigits [y1, y2, y3, y4, y5, y6, o1, o2, d1, d2, h1, h2, m1, m2,
                  s1, s2, f1, f2, f3] then
      if sg = '+' then
        some ((val6 y1 y2 y3 y4 y5 y6 : Int), val2 o1 o2, val2 d1 d2,
              val2 h1 h2, val2 m1 m2, val2 s1 s2, val3 f1 f2 f3)
      else if sg = '-' then
        some (-(val6 y1 y2 y3 y4 y5 y6 : Int), val2 o1 o2, val2 d1 d2,
              val2 h1 h2, val2 m1 m2, val2 s1 s2, val3 f1 f2 f3)
      else none
    else none
  | _ => none

/-- Epoch-millisecond value of a canonical timestamp string. -/
def canonToMillis (s : String) : Option Int :=
  (canonParts s.data).map fun p =>
    millisOfParts p.1 p.2.1 p.2.2.1 p.2.2.2.1 p.2.2.2.2.1 p.2.2.2.2.2.1
      p.2.2.2.2.2.2

/-! Decimal rendering of a natural number (for building the wrapped-epoch
input strings of the spec), fuel-structured so it evaluates by rfl. -/

def natDigitsCore : Nat → Nat → List Char → List Char
  | 0, _, acc => acc
  | fuel + 1, n, acc =>
    if n < 10 then dChar n :: acc
    else natDigitsCore fuel (n / 10) (dChar (n % 10) :: acc)

def natDigits (n : Nat) : List Char := natDigitsCore (n + 1) n []

/-- Numeric value of a digit run (the parseInt model, base 10). -/
def digitsVal (l : List Char) : Nat :=
  l.foldl (fun a c => 10 * a + digitVal c) 0

/-! The regex /\/Date\((-?\d+)([+-]\d+)?\)\// as a leftmost-match search. -/

/-- Consume the optional ([+-]\d+)? offset group. -/
def skipOffset : List Char → List Char
  | [] => []
  | c :: t =>
    if c = '+' ∨ c = '-' then
      if (t.takeWhile isDigitCh).isEmpty then c :: t
      else t.dropWhile isDigitCh
    else c :: t

/-- Match -?\d+([+-]\d+)?\)\/ and return the signed value of the first
digit group (the parseInt of the regex's first capture). -/
def matchTailCore (neg : Bool) (l1 : List Char) : Option Int :=
  let ds := l1.takeWhile isDigitCh
  if ds.isEmpty then none
  else
    match skipOffset (l1.dropWhile isDigitCh) with
    | ')' :: '/' :: _ =>
      some (if neg then -(digitsVal ds : Int) else (digitsVal ds : Int))
    | _ => none

def matchTail (l : List Char) : Option Int :=
  if l.head? = some '-' then matchTailCore true l.tail
  else matchTailCore false l

/-- Try to match the wrapped-epoch pattern at this exact position. -/
def matchSFAt : List Char → Option Int
  | '/' :: 'D' :: 'a' :: 't' :: 'e' :: '(' :: rest => matchTail rest
  | _ => none

/-- Leftmost match of the wrapped-epoch pattern anywhere in the string. -/
def findSF : List Char → Option Int
  | [] => none
  | c :: t =>
    match matchSFAt (c :: t) with
    | some v => some v
    | none => findSF t

/-- Largest epoch-millisecond magnitude representable by a JS Date
(ECMA-262 time value range); beyond it, toISOString throws a RangeError. -/
def maxTimeValue : Nat := 8640000000000000

/-- Embedding of parseSFDate. The input is null (none) or a string; the
second argument models the host's Date.parse fallback for plain calendar
date strings (returning the epoch milliseconds, or none when Date.parse
yields NaN). Except.error models a thrown exception: on a wrapped-epoch
match whose value is outside the representable Date range, the source's
date.toISOString() throws a RangeError. -/
def parseSFDate (sfDate : Option String) (dateParse : String → Option Int) :
    Except String (Option String) :=
  match sfDate with
  | none => .ok none
  | some s =>
    if s.data.isEmpty then .ok none
    else
      match findSF s.data with
      | some ts =>
        if ts.natAbs ≤ maxTimeValue then .ok (some (isoOfMillis ts))
        else .error "RangeError: Invalid time value"
      | none =>
        match dateParse s with
        | some ms => .ok (some (isoOfMillis ms))
        | none => .ok none

/-! The SQL value formatter. -/

def dateColumns : List String :=
  ["effective_start_date", "last_modified_date_time", "effective_end_date"]

/-- JS String(value) for the values a record can hold. -/
def jsString : Value → String
  | .vStr s => s
  | .vNum n => toString n
  | .vNull => "null"

/-- Embedding of escapeSqlString: null in, null out; otherwise the string
form with every single quote doubled (the /'/g global replace). -/
def escapeSqlString : Value → Option String
  | .vNull => none
  | v => some (String.replace (jsString v) "'" "''")

/-- JS template-literal interpolation of a possibly-null string. -/
def jsInterp : Option String → String
  | none => "null"
  | some s => s

/-- Embedding of formatSqlValue. On a date column, a nonzero number value
makes the source call .match on a non-string and throw a TypeError
(modelled as Except.error); the number 0 is falsy, so parseSFDate returns
null for it and the formatter emits NULL. -/
def formatSqlValue (dateParse : String → Option Int) (value : Value)
    (columnName : String) (dbType : String) : Except String String :=
  match value with
  | .vNull => .ok "NULL"
  | .vStr s =>
    if dateColumns.contains columnName then
      match parseSFDate (some s) dateParse with
      | .error e => .error e
      | .ok (some parsedDate) =>
        if dbType = "oracle" then
          .ok ("TO_TIMESTAMP('" ++ parsedDate ++ "', 'YYYY-MM-DD HH24:MI:SS.FF3')")
        else .ok ("'" ++ parsedDate ++ "'::timestamp")
      | .ok none => .ok "NULL"
    else .ok ("'" ++ jsInterp (escapeSqlString (.vStr s)) ++ "'")
  | .vNum n =>
    if dateColumns.contains columnName then
      if n = 0 then .ok "NULL"
      else .error "TypeError: sfDate.match is not a function"
    else .ok ("'" ++ jsInterp (escapeSqlString (.vNum n)) ++ "'")

/-! The static field mapping (config/index.js), in source order. -/

def fieldMapping : List (String × String) :=
  [("code", "code"),
   ("effectiveStartDate", "effective_start_date"),
   ("cust_subCode", "cust_sub_code"),
   ("cust_subDepartment", "cust_sub_department"),
   ("lastModifiedDateTime", "last_modified_date_time"),
   ("jobCode", "job_code"),
   ("jobTitle", "job_title"),
   ("payRange", "pay_range"),
   ("cust_subDepartment2", "cust_sub_department2"),
   ("costCenter", "cost_center"),
   ("externalName_localized", "external_name_localized"),
   ("effectiveStatus", "effective_status"),
   ("externalName_vi_VN", "external_name_vi"),
   ("effectiveEndDate", "effective_end_date"),
   ("payGrade", "pay_grade"),
   ("cust_compensationpackage", "Compensation_Package"),
   ("department", "department"),
   ("cust_max", "cust_max"),
   ("jobLevel", "job_level"),
   ("cust_min", "cust_min"),
   ("externalName_en_US", "externalName_en")]

/-- JS object property lookup on an association-list record. -/
def jsLookup (r : List (String × Value)) (k : String) : Option Value :=
  (r.find? fun p => p.1 == k).map fun p => p.2

/-- Embedding of transformRecord: for every (apiField, dbColumn) pair of the
field mapping, in its order, copy the input's value when the key is present
(explicit null included), else store null, keyed by dbColumn. Pure and
total by construction. -/
def transformRecord (apiRecord : ApiRecord) : List (String × Value) :=
  fieldMapping.map fun p => (p.2, (jsLookup apiRecord p.1).getD .vNull)

/-- Property access dbRecord[col] on a transformed record. -/
def dbGet (dbRecord : List (String × Value)) (col : String) : Value :=
  (jsLookup dbRecord col).getD .vNull

/-- Mapping a fallible function over a list, propagating the first thrown
error (the behaviour of Array.prototype.map with a throwing callback). -/
def exMapM (f : α → Except ε β) : List α → Except ε (List β)
  | [] => .ok []
  | a :: as =>
    match f a with
    | .error e => .error e
    | .ok b =>
      match exMapM f as with
      | .error e => .error e
      | .ok bs => .ok (b :: bs)

/-- The destination-column list computed inside generateOracleInsert:
Object.keys(config.fieldMapping).map(k => config.fieldMapping[k]). -/
def oracleInsertColumns : List String := fieldMapping.map fun k => k.2

/-- The destination-column list computed inside generatePostgresInsert. -/
def postgresInsertColumns : List String := fieldMapping.map fun k => k.2

/-- The formatted values list of generateOracleInsert. -/
def oracleValues (dateParse : String → Option Int) (record : ApiRecord) :
    Except String (List String) :=
  exMapM
    (fun col => formatSqlValue dateParse (dbGet (transformRecord record) col)
      col "oracle")
    oracleInsertColumns

/-- The formatted values list of generatePostgresInsert. -/
def postgresValues (dateParse : String → Option Int) (record : ApiRecord) :
    Except String (List String) :=
  exMapM
    (fun col => formatSqlValue dateParse (dbGet (transformRecord record) col)
      col "postgres")
    postgresInsertColumns

/-- Embedding of generateOracleInsert (the MERGE upsert). -/
def generateOracleInsert (dateParse : String → Option Int)
    (record : ApiRecord) : Except String String :=
  match oracleValues dateParse record with
  | .error e => .error e
  | .ok values =>
    .ok ("MERGE INTO job_sf_position target\nUSING (SELECT '"
      ++ jsInterp (escapeSqlString (dbGet (transformRecord record) "code"))
      ++ "' AS code FROM dual) source\nON (target.code = source.code)\nWHEN NOT MATCHED THEN\n    INSERT ("
      ++ String.intercalate ", " oracleInsertColumns
      ++ ")\n    VALUES ("
      ++ String.intercalate ", " values
      ++ ");")

/-- Embedding of generatePostgresInsert (INSERT ... ON CONFLICT DO NOTHING). -/
def generatePostgresInsert (dateParse : String → Option Int)
    (record : ApiRecord) : Except String String :=
  match postgresValues dateParse record with
  | .error e => .error e
  | .ok values =>
    .ok ("INSERT INTO job_sf_position ("
      ++ String.intercalate ", " postgresInsertColumns
      ++ ")\nVALUES ("
      ++ String.intercalate ", " values
      ++ ")\nON CONFLICT (code) DO NOTHING;")

/-- Embedding of generateInsertIfNotExists: dispatch on the dialect tag
(default argument in the source is "oracle"; any tag other than "postgres"
takes the Oracle branch). -/
def generateInsertIfNotExists (dateParse : String → Option Int)
    (record : ApiRecord) (dbType : String) : Except String String :=
  if dbType = "postgres" then generatePostgresInsert dateParse record
  else generateOracleInsert dateParse record

/-! The SQL header and footer (generateSqlHeader, generateSqlFooter). -/

/-- The date-range text of the header; none models a JS-falsy (absent or
empty) date argument. -/
def dateRangeText (startDate endDate : Option String) : String :=
  match startDate, endDate with
  | none, none => "Yesterday"
  | s, e => (s.getD "N/A") ++ " to " ++ (e.getD "N/A")

/-- Embedding of generateSqlHeader; the generation instant (the source's
new Date().toISOString()) and the configured department filter are explicit
arguments. -/
def generateSqlHeader (now : String) (startDate endDate : Option String)
    (dbType : String) (departmentFilter : String) : String :=
  "-- ============================================\n-- SF Position Sync SQL ("
    ++ dbType.toUpper
    ++ ")\n-- Generated: "
    ++ now
    ++ "\n-- Date Range: "
    ++ dateRangeText startDate endDate
    ++ "\n-- Department Filter: "
    ++ departmentFilter
    ++ "*\n-- Database: "
    ++ dbType.toUpper
    ++ "\n-- ============================================\n\n"

/-- The header text up to (and including) the "-- Generated: " label; does
not depend on the generation instant. -/
def hdrBefore (dbType : String) : String :=
  "-- ============================================\n-- SF Position Sync SQL ("
    ++ dbType.toUpper
    ++ ")\n-- Generated: "

/-- The header text after the generation instant; does not depend on it. -/
def hdrAfter (startDate endDate : Option String)
    (dbType departmentFilter : String) : String :=
  "\n-- Date Range: "
    ++ dateRangeText startDate endDate
    ++ "\n-- Department Filter: "
    ++ departmentFilter
    ++ "*\n-- Database: "
    ++ dbType.toUpper
    ++ "\n-- ============================================\n\n"

/-- Embedding of generateSqlFooter. -/
def generateSqlFooter (totalRecords : Nat) : String :=
  "\n-- ============================================\n-- Total Records: "
    ++ toString totalRecords
    ++ "\n-- End of SQL file\n-- ============================================\n"

/-! The API service (sfApiService.js). -/

/-- The response attached to a failed request (axios error.response). -/
structure ErrResponse where
  status : Nat
  body : String
deriving DecidableEq, Repr

/-- A transport-layer error (axios error object): an optional error code, an
optional HTTP response, and a message. -/
structure JsError where
  code : Option String
  response : Option ErrResponse
  message : String
deriving DecidableEq, Repr

/-- OData envelope: the innermost results holder. -/
structure ApiRespD where
  results : Option (List ApiRecord)
deriving DecidableEq, Repr

/-- OData envelope: the d wrapper. -/
structure ApiRespData where
  d : Option ApiRespD
deriving DecidableEq, Repr

/-- A successful HTTP response (axios response with a data body). -/
structure ApiResponse where
  data : Option ApiRespData
deriving DecidableEq, Repr

/-- Embedding of response.data?.d?.results || []. -/
def extractResults (resp : ApiResponse) : List ApiRecord :=
  ((resp.data.bind ApiRespData.d).bind ApiRespD.results).getD []

/-- Embedding of the retryable-error classification: connection reset,
timeout, connection abort, or a server error status of at least 500. -/
def isRetryable (e : JsError) : Bool :=
  e.code == some "ECONNRESET" || e.code == some "ETIMEDOUT"
    || e.code == some "ECONNABORTED"
    || (match e.response with
        | some r => decide (500 ≤ r.status)
        | none => false)

/-- The fatal error message built after the retry loop gives up. The none
case models the source reading lastError when the loop never ran
(retryAttempts of 0), which would itself throw a TypeError. -/
def fetchErrMsg : Option JsError → String
  | none => "TypeError: Cannot read properties of undefined"
  | some e =>
    match e.response with
    | some r => "API Error " ++ toString r.status ++ ": " ++ r.body
    | none => "Request Error: " ++ e.message

/-- Observable effects of one fetchPositions call: the (top, skip) pair of
every issued request, and the length of every backoff wait. -/
structure FetchLog where
  requests : List (Nat × Nat)
  waits : List Nat
deriving DecidableEq, Repr

/-- The retry loop of fetchPositions. The attempts oracle gives the outcome
of the attempt-th request (1-based). On a retryable failure with attempts
remaining it waits retryDelay * 2 ^ (attempt - 1) and retries the same
(top, skip); otherwise it surfaces the fatal error message. -/
def fetchGo (attempts : Nat → Except JsError ApiResponse)
    (retryAttempts retryDelay top skip : Nat) (attempt : Nat)
    (lastErr : Option JsError) (log : FetchLog) :
    FetchLog × Except String (List ApiRecord) :=
  if h : retryAttempts < attempt then (log, .error (fetchErrMsg lastErr))
  else
    let log1 : FetchLog := { log with requests := log.requests ++ [(top, skip)] }
    match attempts attempt with
    | .ok resp => (log1, .ok (extractResults resp))
    | .error e =>
      if h2 : isRetryable e = true ∧ attempt < retryAttempts then
        fetchGo attempts retryAttempts retryDelay top skip (attempt + 1)
          (some e)
          { log1 with waits := log1.waits ++ [retryDelay * 2 ^ (attempt - 1)] }
      else (log1, .error (fetchErrMsg (some e)))
termination_by retryAttempts + 1 - attempt
decreasing_by omega

/-- Embedding of fetchPositions: run the retry loop from attempt 1. -/
def fetchPositions (attempts : Nat → Except JsError ApiResponse)
    (retryAttempts retryDelay top skip : Nat) :
    FetchLog × Except String (List ApiRecord) :=
  fetchGo attempts retryAttempts retryDelay top skip 1 none ⟨[], []⟩

/-- JS String.prototype.startsWith: the receiver's code units begin with the
argument's (char-list prefix test). -/
def jsStartsWith (s pre : String) : Bool := pre.data.isPrefixOf s.data

/-- The filter callback of filterByDepartment: department = pos.department
|| "", then department.startsWith(prefix). A JS-falsy department value (an
absent key, null, the number 0, or the empty string) is replaced by the
empty string; a nonzero number is truthy, so it stays a number and the
.startsWith call on it throws a TypeError, modelled as Except.error. -/
def departmentMatches (pos : ApiRecord) (pre : String) : Except String Bool :=
  match jsLookup pos "department" with
  | some (.vStr s) => .ok (jsStartsWith s pre)
  | some (.vNum n) =>
      if n = 0 then .ok (jsStartsWith "" pre)
      else .error "TypeError: department.startsWith is not a function"
  | some .vNull => .ok (jsStartsWith "" pre)
  | none => .ok (jsStartsWith "" pre)

/-- Embedding of filterByDepartment: keep records whose department starts
with the given prefix string. Array.prototype.filter runs the callback left
to right, and a throw from the callback aborts the whole call, so the first
error propagates. -/
def filterByDepartment (positions : List ApiRecord) (pre : String) :
    Except String (List ApiRecord) :=
  match positions with
  | [] => .ok []
  | pos :: rest =>
    match departmentMatches pos pre with
    | .error e => .error e
    | .ok b =>
      match filterByDepartment rest pre with
      | .error e => .error e
      | .ok l => .ok (if b then pos :: l else l)

/-! The sync orchestrator (index.js). -/

/-- Observable outcome of the pagination loop: the skip of every issued page
request, the running totals, and the accumulated filtered records. -/
structure LoopOut where
  requests : List Nat
  totalFetched : Nat
  totalFiltered : Nat
  accumulated : List ApiRecord
deriving DecidableEq, Repr

/-- The while (hasMoreData) pagination loop of syncPositions, fuelled for
termination (none means the fuel ran out with the loop still going). A page
strictly shorter than the page size ends the loop; otherwise skip advances
by the page size. A fetch error, or a TypeError thrown by the department
filter on the fetched page, propagates immediately. -/
def syncLoop (fetch : Nat → Except String (List ApiRecord)) (pageSize : Nat)
    (deptFilter : String) :
    Nat → Nat → List Nat → Nat → Nat → List ApiRecord →
      Option (Except String LoopOut)
  | 0, _, _, _, _, _ => none
  | fuel + 1, skip, reqs, totF, totFilt, acc =>
    match fetch skip with
    | .error e => some (.error e)
    | .ok positions =>
      let fetchedCount := positions.length
      match filterByDepartment positions deptFilter with
      | .error e => some (.error e)
      | .ok filtered =>
        let reqs1 := reqs ++ [skip]
        let totF1 := totF + fetchedCount
        let totFilt1 := totFilt + filtered.length
        let acc1 := acc ++ filtered
        if fetchedCount < pageSize then
          some (.ok ⟨reqs1, totF1, totFilt1, acc1⟩)
        else syncLoop fetch pageSize deptFilter fuel (skip + pageSize) reqs1
          totF1 totFilt1 acc1

/-- A file produced by fs.writeFileSync. -/
structure FileWrite where
  path : String
  content : String
deriving DecidableEq, Repr

/-- The summary object returned by syncPositions (the duration field, pure
wall-clock reporting, is not modelled). -/
structure SyncResult where
  success : Bool
  totalFetched : Nat
  totalFiltered : Nat
  sqlStatementsGenerated : Nat
  oracleFile : String
  postgresFile : String
deriving DecidableEq, Repr

def replaceFirstAux (t r : List Char) : List Char → List Char
  | [] => []
  | c :: cs =>
    if t.isPrefixOf (c :: cs) then r ++ (c :: cs).drop t.length
    else c :: replaceFirstAux t r cs

/-- JS String.prototype.replace with a string pattern: replace the first
occurrence only. -/
def replaceFirst (s target repl : String) : String :=
  String.mk (replaceFirstAux target.data repl.data s.data)

/-- Embedding of syncPositions: run the pagination loop, then (only on
success) generate both per-dialect statement lists over the accumulated
records and write the two files. The first component of the result is the
list of file writes performed; an exception thrown anywhere before the
writes leaves it empty. -/
def syncPositions (dateParse : String → Option Int)
    (fetch : Nat → Except String (List ApiRecord)) (pageSize : Nat)
    (deptFilter : String) (outputFile : String) (now ts : String)
    (startDate endDate : Option String) (fuel : Nat) :
    List FileWrite × Option (Except String SyncResult) :=
  match syncLoop fetch pageSize deptFilter fuel 0 [] 0 0 [] with
  | none => ([], none)
  | some (.error e) => ([], some (.error e))
  | some (.ok out) =>
    let baseFileName := replaceFirst outputFile ".sql" ("_" ++ ts)
    match exMapM
        (fun pos =>
          match generateInsertIfNotExists dateParse pos "oracle" with
          | .error e => .error e
          | .ok o =>
            match generateInsertIfNotExists dateParse pos "postgres" with
            | .error e => .error e
            | .ok p => .ok (o, p))
        out.accumulated with
    | .error e => ([], some (.error e))
    | .ok pairs =>
      let oracleStatements := pairs.map Prod.fst
      let postgresStatements := pairs.map Prod.snd
      let oracleFile := baseFileName ++ "_oracle.sql"
      let oracleSqlContent :=
        generateSqlHeader now startDate endDate "oracle" deptFilter
          ++ String.intercalate "\n\n" oracleStatements
          ++ generateSqlFooter oracleStatements.length
      let postgresFile := baseFileName ++ "_postgres.sql"
      let postgresSqlContent :=
        generateSqlHeader now startDate endDate "postgres" deptFilter
          ++ String.intercalate "\n\n" postgresStatements
          ++ generateSqlFooter postgresStatements.length
      ([⟨oracleFile, oracleSqlContent⟩, ⟨postgresFile, postgresSqlContent⟩],
        some (.ok ⟨true, out.totalFetched, out.totalFiltered,
          out.accumulated.length, oracleFile, postgresFile⟩))

/-! Construction of wrapped-epoch input strings for the round-trip claim. -/

/-- Decimal character rendering of an integer (sign then digits). -/
def intChars (n : Int) : List Char :=
  if n < 0 then '-' :: natDigits n.natAbs else natDigits n.natAbs

/-- The optional [+-]offset part of a wrapped-epoch string. -/
def offChars : Option (Bool × Nat) → List Char
  | none => []
  | some (sg, m) => (if sg then '-' else '+') :: natDigits m

/-- The wrapped-epoch input string "/Date(N)/", optionally with a
[+-]offset part before the closing ")/". -/
def wrapDate (n : Int) (off : Option (Bool × Nat)) : String :=
  String.mk ('/' :: 'D' :: 'a' :: 't' :: 'e' :: '(' ::
    (intChars n ++ (offChars off ++ [')', '/'])))

/-! Digit lemmas. -/

theorem dChar_isDigit (n : Nat) (h : n < 10) : isDigitCh (dChar n) = true := by
  interval_cases n <;> decide

theorem digitVal_dChar (n : Nat) (h : n < 10) : digitVal (dChar n) = n := by
  interval_cases n <;> decide

theorem natDigitsCore_spec (fuel : Nat) : ∀ n acc, n < fuel →
    ∃ ds, natDigitsCore fuel n acc = ds ++ acc ∧ ds ≠ [] ∧
      (∀ c ∈ ds, isDigitCh c = true) ∧
      ∀ a, ds.foldl (fun x c => 10 * x + digitVal c) a = a * 10 ^ ds.length + n := by
  induction fuel with
  | zero => intro n acc h; omega
  | succ f ih =>
    intro n acc h
    by_cases h10 : n < 10
    · refine ⟨[dChar n], by simp [natDigitsCore, h10], by simp, ?_, ?_⟩
      · intro c hc; simp at hc; subst hc; exact dChar_isDigit n h10
      · intro a
        simp [digitVal_dChar n h10]
        ring
    · have hrec : natDigitsCore (f + 1) n acc
          = natDigitsCore f (n / 10) (dChar (n % 10) :: acc) := by
        simp [natDigitsCore, h10]
      have hlt : n / 10 < f := by omega
      obtain ⟨ds, hds, hne, hdig, hval⟩ := ih (n / 10) (dChar (n % 10) :: acc) hlt
      refine ⟨ds ++ [dChar (n % 10)], ?_, by simp, ?_, ?_⟩
      · rw [hrec, hds, List.append_assoc]
        simp
      · intro c hc
        rcases List.mem_append.mp hc with h1 | h2
        · exact hdig c h1
        · simp at h2; subst h2; exact dChar_isDigit _ (by omega)
      · intro a
        rw [List.foldl_append, hval a]
        simp [digitVal_dChar (n % 10) (by omega)]
        have hn : 10 * (n / 10) + n % 10 = n := Nat.div_add_mod n 10
        calc 10 * (a * 10 ^ ds.length + n / 10) + n % 10
            = a * 10 ^ (ds.length + 1) + (10 * (n / 10) + n % 10) := by ring
          _ = a * 10 ^ (ds.length + 1) + n := by rw [hn]

theorem natDigits_spec (n : Nat) :
    natDigits n ≠ [] ∧ (∀ c ∈ natDigits n, isDigitCh c = true) ∧
      digitsVal (natDigits n) = n := by
  obtain ⟨ds, hds, hne, hdig, hval⟩ := natDigitsCore_spec (n + 1) n [] (by omega)
  have heq : natDigits n = ds := by rw [natDigits, hds, List.append_nil]
  rw [heq]
  refine ⟨hne, hdig, ?_⟩
  have := hval 0
  simpa [digitsVal] using this

/-! Lemmas about the wrapped-epoch matcher. -/

theorem span_digits_append (p : Char → Bool) :
    ∀ (d r : List Char), (∀ c ∈ d, p c = true) →
      (∀ c, r.head? = some c → p c = false) →
      (d ++ r).takeWhile p = d ∧ (d ++ r).dropWhile p = r := by
  intro d
  induction d with
  | nil =>
    intro r _ hr
    cases r with
    | nil => simp
    | cons c t =>
      have hc := hr c rfl
      simp [List.takeWhile_cons, List.dropWhile_cons, hc]
  | cons c t ih =>
    intro r hd hr
    have hc := hd c (by simp)
    have iht := ih r (fun x hx => hd x (by simp [hx])) hr
    simp [List.takeWhile_cons, List.dropWhile_cons, hc, iht.1, iht.2]

theorem matchTailCore_spec (neg : Bool) (ds t rest : List Char)
    (hds : ds ≠ []) (hdig : ∀ c ∈ ds, isDigitCh c = true)
    (ht : ∀ c, t.head? = some c → isDigitCh c = false)
    (hskip : skipOffset t = ')' :: '/' :: rest) :
    matchTailCore neg (ds ++ t) =
      some (if neg then -(digitsVal ds : Int) else (digitsVal ds : Int)) := by
  obtain ⟨htake, hdrop⟩ := span_digits_append isDigitCh ds t hdig ht
  have hemp : ds.isEmpty = false := by
    cases ds with
    | nil => exact absurd rfl hds
    | cons a as => rfl
  simp only [matchTailCore, htake, hdrop, hemp, hskip]
  rfl

theorem isDigitCh_rparen : isDigitCh ')' = false := by decide

theorem skipOffset_tail (off : Option (Bool × Nat)) :
    skipOffset (offChars off ++ [')', '/']) = ')' :: '/' :: []
      ∧ ∀ c, ((offChars off ++ [')', '/']).head? = some c) →
          isDigitCh c = false := by
  rcases off with _ | ⟨sg, m⟩
  · constructor
    · rfl
    · intro c hc
      simp [offChars] at hc
      subst hc
      decide
  · obtain ⟨hne, hdig, _⟩ := natDigits_spec m
    have hr : ∀ c, ([')', '/'] : List Char).head? = some c → isDigitCh c = false := by
      intro c hc; simp at hc; subst hc; decide
    obtain ⟨htake, hdrop⟩ :=
      span_digits_append isDigitCh (natDigits m) [')', '/'] hdig hr
    have hor : (if sg then '-' else '+') = '+' ∨ (if sg then '-' else '+') = '-' := by
      cases sg <;> simp
    obtain ⟨c0, cs0, hc0⟩ := List.exists_cons_of_ne_nil hne
    have hempf : (natDigits m).isEmpty = false := by rw [hc0]; rfl
    constructor
    · simp only [offChars, List.cons_append, skipOffset]
      rw [if_pos hor, htake, hempf]
      simp only [Bool.false_eq_true, if_false]
      rw [hdrop]
    · intro c hc
      simp only [offChars, List.cons_append, List.head?_cons] at hc
      have : c = (if sg then '-' else '+') := by
        injection hc with h; exact h.symm
      subst this
      cases sg <;> decide

theorem matchTail_intChars (n : Int) (off : Option (Bool × Nat)) :
    matchTail (intChars n ++ (offChars off ++ [')', '/'])) = some n := by
  obtain ⟨hskip, ht⟩ := skipOffset_tail off
  obtain ⟨hne, hdig, hval⟩ := natDigits_spec n.natAbs
  obtain ⟨c, cs, hcons⟩ := List.exists_cons_of_ne_nil hne
  have hcdig : isDigitCh c = true := hdig c (by rw [hcons]; simp)
  have hcd : c ≠ '-' := by
    intro h; rw [h] at hcdig; exact absurd hcdig (by decide)
  by_cases hn : n < 0
  · have hx : intChars n = '-' :: natDigits n.natAbs := by
      simp [intChars, hn]
    rw [hx]
    have hcore := matchTailCore_spec true (natDigits n.natAbs)
      (offChars off ++ [')', '/']) [] hne hdig ht hskip
    simp only [matchTail, List.cons_append, List.head?_cons, if_pos rfl,
      List.tail_cons]
    rw [hcore, hval]
    have habs : ((n.natAbs : Nat) : Int) = -n :=
      Int.ofNat_natAbs_of_nonpos (by omega)
    simp [habs]
  · have hx : intChars n = natDigits n.natAbs := by
      simp [intChars, hn]
    rw [hx]
    have hcore := matchTailCore_spec false (natDigits n.natAbs)
      (offChars off ++ [')', '/']) [] hne hdig ht hskip
    have hhd : ((natDigits n.natAbs ++ (offChars off ++ [')', '/'])).head?
        = some '-') = False := by
      rw [hcons]
      simp [hcd]
    simp only [matchTail, hhd, if_false]
    rw [hcore, hval]
    have habs : ((n.natAbs : Nat) : Int) = n :=
      Int.natAbs_of_nonneg (by omega)
    simp [habs]

theorem findSF_wrapDate (n : Int) (off : Option (Bool × Nat)) :
    findSF (wrapDate n off).data = some n := by
  have hdata : (wrapDate n off).data = '/' :: 'D' :: 'a' :: 't' :: 'e' :: '(' ::
      (intChars n ++ (offChars off ++ [')', '/'])) := rfl
  rw [hdata, findSF]
  simp only [matchSFAt]
  rw [matchTail_intChars]

theorem parseSFDate_wrapDate (n : Int) (off : Option (Bool × Nat))
    (dp : String → Option Int) (h : n.natAbs ≤ maxTimeValue) :
    parseSFDate (some (wrapDate n off)) dp = .ok (some (isoOfMillis n)) := by
  have hne : (wrapDate n off).data.isEmpty = false := rfl
  simp only [parseSFDate, hne, Bool.false_eq_true, if_false, findSF_wrapDate]
  rw [if_pos h]

/-! Calendar lemmas. -/

theorem dayFromYear_succ (y : Int) :
    dayFromYear (y + 1) = dayFromYear y + (daysInYear y : Int) := by
  simp only [dayFromYear, daysInYear, isLeap]
  by_cases h1 : y % 4 = 0 <;> by_cases h2 : y % 100 = 0 <;>
    by_cases h3 : y % 400 = 0 <;>
    simp [h1, h2, h3] <;> omega

theorem dayFromYear_1970 : dayFromYear 1970 = 0 := by decide

theorem yearOfDayUp_spec (y0 : Int) (d : Nat) :
    dayFromYear (yearOfDayUp y0 d).1 + ((yearOfDayUp y0 d).2 : Int) =
        dayFromYear y0 + d
      ∧ (yearOfDayUp y0 d).2 < daysInYear (yearOfDayUp y0 d).1 := by
  induction y0, d using yearOfDayUp.induct with
  | case1 y d h =>
    rw [yearOfDayUp, dif_pos h]
    exact ⟨rfl, h⟩
  | case2 y d h ih =>
    rw [yearOfDayUp, dif_neg h]
    obtain ⟨ih1, ih2⟩ := ih
    refine ⟨?_, ih2⟩
    rw [ih1, dayFromYear_succ]
    have hle : daysInYear y ≤ d := by omega
    omega

theorem yearOfDayDown_spec (y0 : Int) (d : Int) :
    dayFromYear (yearOfDayDown y0 d).1 + ((yearOfDayDown y0 d).2 : Int) =
        dayFromYear y0 + d
      ∧ (d < 0 ∨ d < (daysInYear y0 : Int) →
          (yearOfDayDown y0 d).2 < daysInYear (yearOfDayDown y0 d).1) := by
  induction y0, d using yearOfDayDown.induct with
  | case1 y d h ih =>
    rw [yearOfDayDown, dif_pos h]
    obtain ⟨ih1, ih2⟩ := ih
    constructor
    · rw [ih1]
      have hsucc := dayFromYear_succ (y - 1)
      have hy : y - 1 + 1 = y := by ring
      rw [hy] at hsucc
      omega
    · intro _
      apply ih2
      have h365 : 365 ≤ daysInYear (y - 1) := by
        simp only [daysInYear]; split <;> omega
      omega
  | case2 y d h =>
    rw [yearOfDayDown, dif_neg h]
    constructor
    · simp
      omega
    · intro hor
      rcases hor with h1 | h1
      · omega
      · simp
        omega

theorem yearAndDoy_spec (day : Int) :
    dayFromYear (yearAndDoy day).1 + ((yearAndDoy day).2 : Int) = day
      ∧ (yearAndDoy day).2 < daysInYear (yearAndDoy day).1 := by
  unfold yearAndDoy
  split
  · obtain ⟨h1, h2⟩ := yearOfDayUp_spec 1970 day.toNat
    refine ⟨?_, h2⟩
    rw [h1, dayFromYear_1970]
    omega
  · obtain ⟨h1, h2⟩ := yearOfDayDown_spec 1970 day
    refine ⟨?_, h2 (by omega)⟩
    rw [h1, dayFromYear_1970]
    omega

theorem monthLengths_sum (b : Bool) :
    (monthLengths b).sum = if b then 366 else 365 := by
  cases b <;> decide

theorem monthLengths_le31 (b : Bool) : ∀ x ∈ monthLengths b, x ≤ 31 := by
  cases b <;> decide

theorem monthLengths_length (b : Bool) : (monthLengths b).length = 12 := by
  cases b <;> rfl

theorem getD_le_31 (l : List Nat) (i : Nat) (h : ∀ x ∈ l, x ≤ 31) :
    l.getD i 0 ≤ 31 := by
  rw [List.getD_eq_getElem?_getD]
  rcases hg : l[i]? with _ | a
  · simp
  · simp only [Option.getD_some]
    have hg2 : l.get? i = some a := by
      rw [List.get?_eq_getElem?, hg]
    exact h a (List.get?_mem hg2)

theorem monthFromDoy_spec :
    ∀ (lens : List Nat) (m0 doy : Nat), doy < lens.sum →
      ((lens.take ((monthFromDoy lens m0 doy).1 - m0)).sum
          + ((monthFromDoy lens m0 doy).2 - 1) = doy)
        ∧ 1 ≤ (monthFromDoy lens m0 doy).2
        ∧ m0 ≤ (monthFromDoy lens m0 doy).1
        ∧ (monthFromDoy lens m0 doy).1 - m0 < lens.length
        ∧ (monthFromDoy lens m0 doy).2 - 1 <
            lens.getD ((monthFromDoy lens m0 doy).1 - m0) 0 := by
  intro lens
  induction lens with
  | nil =>
    intro m0 doy h
    simp at h
  | cons len rest ih =>
    intro m0 doy h
    by_cases hlt : doy < len
    · rw [monthFromDoy, if_pos hlt]
      refine ⟨by simp, by omega, le_refl _, by simp, ?_⟩
      simp
      omega
    · rw [monthFromDoy, if_neg hlt]
      have h2 : doy - len < rest.sum := by
        simp [List.sum_cons] at h
        omega
      obtain ⟨e1, e2, e3, e4, e5⟩ := ih (m0 + 1) (doy - len) h2
      have hsub : (monthFromDoy rest (m0 + 1) (doy - len)).1 - m0 =
          ((monthFromDoy rest (m0 + 1) (doy - len)).1 - (m0 + 1)) + 1 := by
        omega
      rw [hsub]
      refine ⟨?_, e2, by omega, ?_, ?_⟩
      · rw [List.take_succ_cons, List.sum_cons]
        omega
      · simp
        omega
      · rw [List.getD_cons_succ]
        exact e5

/-! Rendering and reparsing fixed-width digit fields. -/

theorem isDigit_mod10 (x : Nat) : isDigitCh (dChar (x % 10)) = true :=
  dChar_isDigit _ (Nat.mod_lt _ (by norm_num))

theorem digitVal_mod10 (x : Nat) : digitVal (dChar (x % 10)) = x % 10 :=
  digitVal_dChar _ (Nat.mod_lt _ (by norm_num))

set_option maxHeartbeats 2000000 in
theorem canonParts_render4 (yv mo dd hh mi ss ms : Nat)
    (hy : yv < 10000) (hmo : mo < 100) (hdd : dd < 100) (hhh : hh < 100)
    (hmi : mi < 100) (hss : ss < 100) (hms : ms < 1000) :
    canonParts (pad4 yv ++ '-' :: pad2 mo ++ '-' :: pad2 dd ++ ' ' ::
        (pad2 hh ++ ':' :: pad2 mi ++ ':' :: pad2 ss ++ '.' :: pad3 ms))
      = some ((yv : Int), mo, dd, hh, mi, ss, ms) := by
  have d1 := dChar_isDigit (yv / 1000) (by omega)
  have d2 := dChar_isDigit (mo / 10) (by omega)
  have d3 := dChar_isDigit (dd / 10) (by omega)
  have d4 := dChar_isDigit (hh / 10) (by omega)
  have d5 := dChar_isDigit (mi / 10) (by omega)
  have d6 := dChar_isDigit (ss / 10) (by omega)
  have d7 := dChar_isDigit (ms / 100) (by omega)
  have v1 := digitVal_dChar (yv / 1000) (by omega)
  have v2 := digitVal_dChar (mo / 10) (by omega)
  have v3 := digitVal_dChar (dd / 10) (by omega)
  have v4 := digitVal_dChar (hh / 10) (by omega)
  have v5 := digitVal_dChar (mi / 10) (by omega)
  have v6 := digitVal_dChar (ss / 10) (by omega)
  have v7 := digitVal_dChar (ms / 100) (by omega)
  simp only [pad4, pad2, pad3, List.cons_append, List.nil_append]
  simp only [canonParts, allDigits, List.all_cons, List.all_nil,
    isDigit_mod10, d1, d2, d3, d4, d5, d6, d7, Bool.and_self, Bool.and_true,
    if_true]
  simp only [Option.some.injEq, Prod.mk.injEq, val4, val2, val3,
    digitVal_mod10, v1, v2, v3, v4, v5, v6, v7]
  refine ⟨?_, by omega, by omega, by omega, by omega, by omega, by omega⟩
  push_cast
  omega

set_option maxHeartbeats 2000000 in
theorem canonParts_render6 (sg : Char) (yv mo dd hh mi ss ms : Nat)
    (hsg : sg = '+' ∨ sg = '-')
    (hy : yv < 1000000) (hmo : mo < 100) (hdd : dd < 100) (hhh : hh < 100)
    (hmi : mi < 100) (hss : ss < 100) (hms : ms < 1000) :
    canonParts (sg :: pad6 yv ++ '-' :: pad2 mo ++ '-' :: pad2 dd ++ ' ' ::
        (pad2 hh ++ ':' :: pad2 mi ++ ':' :: pad2 ss ++ '.' :: pad3 ms))
      = some (if sg = '-' then -(yv : Int) else (yv : Int),
          mo, dd, hh, mi, ss, ms) := by
  have d1 := dChar_isDigit (yv / 100000) (by omega)
  have d2 := dChar_isDigit (mo / 10) (by omega)
  have d3 := dChar_isDigit (dd / 10) (by omega)
  have d4 := dChar_isDigit (hh / 10) (by omega)
  have d5 := dChar_isDigit (mi / 10) (by omega)
  have d6 := dChar_isDigit (ss / 10) (by omega)
  have d7 := dChar_isDigit (ms / 100) (by omega)
  have v1 := digitVal_dChar (yv / 100000) (by omega)
  have v2 := digitVal_dChar (mo / 10) (by omega)
  have v3 := digitVal_dChar (dd / 10) (by omega)
  have v4 := digitVal_dChar (hh / 10) (by omega)
  have v5 := digitVal_dChar (mi / 10) (by omega)
  have v6 := digitVal_dChar (ss / 10) (by omega)
  have v7 := digitVal_dChar (ms / 100) (by omega)
  have hval : val6 (dChar (yv / 100000)) (dChar (yv / 10000 % 10))
      (dChar (yv / 1000 % 10)) (dChar (yv / 100 % 10)) (dChar (yv / 10 % 10))
      (dChar (yv % 10)) = yv := by
    simp only [val6, digitVal_mod10, v1]
    omega
  simp only [pad6, pad2, pad3, List.cons_append, List.nil_append]
  simp only [canonParts, allDigits, List.all_cons, List.all_nil,
    isDigit_mod10, d1, d2, d3, d4, d5, d6, d7, Bool.and_self, Bool.and_true,
    if_true]
  rcases hsg with h | h <;> subst h <;>
    simp only [Char.reduceEq, ite_true, ite_false] <;>
    rw [hval] <;>
    simp only [Option.some.injEq, Prod.mk.injEq, val2, val3,
      digitVal_mod10, v2, v3, v4, v5, v6, v7, true_and, and_true] <;>
    omega

/-! The round trip: reparsing the canonical rendering of any representable
epoch-millisecond value gives the value back. -/

set_option maxHeartbeats 2000000 in
theorem canonToMillis_isoOfMillis (t : Int) (h : t.natAbs ≤ maxTimeValue) :
    canonToMillis (isoOfMillis t) = some t := by
  have habs : -8640000000000000 ≤ t ∧ t ≤ 8640000000000000 := by
    simp only [maxTimeValue] at h
    omega
  have hmod0 : (0 : Int) ≤ t % msPerDay := Int.emod_nonneg t (by decide)
  have hmodlt : t % msPerDay < 86400000 := by
    have := Int.emod_lt_of_pos t (show (0 : Int) < msPerDay by decide)
    simpa [msPerDay] using this
  have hdayms : msPerDay * (t / msPerDay) + t % msPerDay = t :=
    Int.ediv_add_emod t msPerDay
  have hdaybound : -100000000 ≤ t / msPerDay ∧ t / msPerDay ≤ 100000000 := by
    simp only [msPerDay] at *
    omega
  rcases hyd : yearAndDoy (t / msPerDay) with ⟨y, doy⟩
  have hspec := yearAndDoy_spec (t / msPerDay)
  rw [hyd] at hspec
  simp only at hspec
  obtain ⟨hy1, hy2⟩ := hspec
  have hdoy366 : doy < 366 := by
    simp only [daysInYear] at hy2
    split at hy2 <;> omega
  have hyb : -272000 ≤ y ∧ y ≤ 276000 := by
    have h1 := hy1
    simp only [dayFromYear, msPerDay] at h1
    omega
  rcases hmd : monthFromDoy (monthLengths (isLeap y)) 1 doy with ⟨mo, dd⟩
  have hdoySum : doy < (monthLengths (isLeap y)).sum := by
    rw [monthLengths_sum]
    simp only [daysInYear] at hy2
    exact hy2
  have hmspec := monthFromDoy_spec (monthLengths (isLeap y)) 1 doy hdoySum
  rw [hmd] at hmspec
  simp only at hmspec
  obtain ⟨hm1, hm2, hm3, hm4, hm5⟩ := hmspec
  have hmo12 : mo ≤ 12 := by
    rw [monthLengths_length] at hm4
    omega
  have hdd31 : dd ≤ 31 := by
    have := getD_le_31 (monthLengths (isLeap y)) (mo - 1) (monthLengths_le31 _)
    omega
  have hdbm : daysBeforeMonth (isLeap y) mo + (dd - 1) = doy := hm1
  have hdata : (isoOfMillis t).data
      = yearChars y ++ '-' :: pad2 mo ++ '-' :: pad2 dd
        ++ ' ' :: timeChars (t % msPerDay).toNat := by
    have hbase : (isoOfMillis t).data
        = yearChars (yearAndDoy (t / msPerDay)).1
          ++ '-' :: pad2 (monthFromDoy
              (monthLengths (isLeap (yearAndDoy (t / msPerDay)).1)) 1
              (yearAndDoy (t / msPerDay)).2).1
          ++ '-' :: pad2 (monthFromDoy
              (monthLengths (isLeap (yearAndDoy (t / msPerDay)).1)) 1
              (yearAndDoy (t / msPerDay)).2).2
          ++ ' ' :: timeChars (t % msPerDay).toNat := rfl
    rw [hbase, hyd]
    simp only
    rw [hmd]
  have hmain : millisOfParts y mo dd ((t % msPerDay).toNat / 3600000)
      ((t % msPerDay).toNat / 60000 % 60) ((t % msPerDay).toNat / 1000 % 60)
      ((t % msPerDay).toNat % 1000) = t := by
    simp only [millisOfParts, msPerDay]
    simp only [msPerDay] at hy1 hdayms
    omega
  simp only [canonToMillis, hdata, timeChars]
  by_cases hyr : 0 ≤ y ∧ y ≤ 9999
  · have hyc : yearChars y = pad4 y.toNat := by
      simp only [yearChars]
      rw [if_pos hyr]
    rw [hyc]
    rw [canonParts_render4 y.toNat mo dd ((t % msPerDay).toNat / 3600000)
      ((t % msPerDay).toNat / 60000 % 60) ((t % msPerDay).toNat / 1000 % 60)
      ((t % msPerDay).toNat % 1000) (by omega) (by omega) (by omega)
      (by omega) (by omega) (by omega) (by omega)]
    have hyt : ((y.toNat : Nat) : Int) = y := Int.toNat_of_nonneg hyr.1
    simp only [Option.map_some', hyt]
    rw [hmain]
  · by_cases hneg : y < 0
    · have hyc : yearChars y = '-' :: pad6 (-y).toNat := by
        simp only [yearChars]
        rw [if_neg hyr, if_pos hneg]
      rw [hyc]
      rw [canonParts_render6 '-' (-y).toNat mo dd
        ((t % msPerDay).toNat / 3600000) ((t % msPerDay).toNat / 60000 % 60)
        ((t % msPerDay).toNat / 1000 % 60) ((t % msPerDay).toNat % 1000)
        (Or.inr rfl) (by omega) (by omega) (by omega) (by omega) (by omega)
        (by omega) (by omega)]
      have hyt : (((-y).toNat : Nat) : Int) = -y := Int.toNat_of_nonneg (by omega)
      simp only [Option.map_some', Char.reduceEq, ite_true, hyt, neg_neg]
      rw [hmain]
    · have hyc : yearChars y = '+' :: pad6 y.toNat := by
        simp only [yearChars]
        rw [if_neg hyr, if_neg hneg]
      rw [hyc]
      rw [canonParts_render6 '+' y.toNat mo dd
        ((t % msPerDay).toNat / 3600000) ((t % msPerDay).toNat / 60000 % 60)
        ((t % msPerDay).toNat / 1000 % 60) ((t % msPerDay).toNat % 1000)
        (Or.inl rfl) (by omega) (by omega) (by omega) (by omega) (by omega)
        (by omega) (by omega)]
      have hyt : ((y.toNat : Nat) : Int) = y := Int.toNat_of_nonneg (by omega)
      simp only [Option.map_some', Char.reduceEq, ite_false, hyt]
      rw [hmain]

/-! Generic helper lemmas about strings and fallible maps. -/

theorem str_data_append (a b : String) : (a ++ b).data = a.data ++ b.data := rfl

theorem head?_append_some {α : Type} {l1 l2 : List α} {a : α}
    (h : l1.head? = some a) : (l1 ++ l2).head? = some a := by
  cases l1 with
  | nil => simp at h
  | cons x xs => simpa using h

theorem exMapM_ok_length {α β ε : Type} (f : α → Except ε β) :
    ∀ (l : List α) (out : List β), exMapM f l = .ok out →
      out.length = l.length := by
  intro l
  induction l with
  | nil =>
    intro out h
    simp only [exMapM] at h
    cases h
    rfl
  | cons a as ih =>
    intro out h
    simp only [exMapM] at h
    rcases hfa : f a with e | b <;> rw [hfa] at h
    · cases h
    · rcases hrest : exMapM f as with e | bs <;> rw [hrest] at h
      · cases h
      · cases h
        simp [ih bs hrest]

theorem exMapM_ok_get {α β ε : Type} (f : α → Except ε β) :
    ∀ (l : List α) (out : List β), exMapM f l = .ok out →
      ∀ (i : Nat) (a : α), l.get? i = some a →
        ∃ b, out.get? i = some b ∧ f a = .ok b := by
  intro l
  induction l with
  | nil =>
    intro out h i a ha
    simp at ha
  | cons x xs ih =>
    intro out h i a ha
    simp only [exMapM] at h
    rcases hfx : f x with e | b <;> rw [hfx] at h
    · cases h
    · rcases hrest : exMapM f xs with e | bs <;> rw [hrest] at h
      · cases h
      · cases h
        cases i with
        | zero =>
          simp only [List.get?_cons_zero, Option.some.injEq] at ha
          subst ha
          exact ⟨b, rfl, hfx⟩
        | succ j =>
          rw [List.get?_cons_succ] at ha
          obtain ⟨c, hc1, hc2⟩ := ih bs hrest j a ha
          exact ⟨c, by rw [List.get?_cons_succ]; exact hc1, hc2⟩

/-! Claim theorems. -/

/-- C1 (corrected): for every wrapped-epoch input string of the form
/Date(N)/ or /Date(N+-offset)/ (offset ignored) whose integer N lies in the
host Date-representable range (magnitude at most 8.64e15 milliseconds),
parseSFDate returns the canonical space-separated timestamp string of N and
that string's epoch-millisecond value equals N (round trip). For N outside
that range the source's date.toISOString() throws a RangeError instead of
returning a string (see the counterexample), so the original claim, which
quantified over all integers N, holds only under this bound. -/
theorem c1_parseSFDate_roundtrip (n : Int) (off : Option (Bool × Nat))
    (dp : String → Option Int) (h : n.natAbs ≤ maxTimeValue) :
    parseSFDate (some (wrapDate n off)) dp = .ok (some (isoOfMillis n))
      ∧ canonToMillis (isoOfMillis n) = some n :=
  ⟨parseSFDate_wrapDate n off dp h, canonToMillis_isoOfMillis n h⟩

/-- C1 witness: the round trip at the concrete input /Date(1700000000000+700)/. -/
theorem c1_parseSFDate_roundtrip_witness :
    parseSFDate (some (wrapDate 1700000000000 (some (false, 700))))
        (fun _ => none) = .ok (some (isoOfMillis 1700000000000))
      ∧ canonToMillis (isoOfMillis 1700000000000) = some 1700000000000 :=
  c1_parseSFDate_roundtrip 1700000000000 (some (false, 700)) (fun _ => none)
    (by decide)

/-- C1 counterexample: at N = 8640000000000001, one past the maximum Date
time value, parseSFDate on the wrapped-epoch string /Date(8640000000000001)/
throws a RangeError (modelled as Except.error) rather than returning a
canonical timestamp string, refuting the claim as stated for arbitrary
integers N. -/
theorem c1_parseSFDate_counterexample :
    parseSFDate (some (wrapDate 8640000000000001 none)) (fun _ => none)
      = .error "RangeError: Invalid time value" := by
  rfl

/-- C2: parseSFDate returns null (ok none) without throwing for null input,
for empty input, and for any string matching neither the wrapped-epoch
pattern nor the host's calendar-date parser; consequently, on every column
of the date-column set, formatSqlValue emits the literal NULL when date
parsing fails instead of aborting the record. -/
theorem c2_unparseable_null (dp : String → Option Int) (s : String)
    (col db : String) :
    parseSFDate none dp = .ok none
    ∧ (s = "" → parseSFDate (some s) dp = .ok none)
    ∧ (findSF s.data = none → dp s = none →
        parseSFDate (some s) dp = .ok none)
    ∧ (dateColumns.contains col = true →
        parseSFDate (some s) dp = .ok none →
        formatSqlValue dp (.vStr s) col db = .ok "NULL") := by
  refine ⟨rfl, ?_, ?_, ?_⟩
  · intro he
    subst he
    rfl
  · intro hf hdp
    by_cases he : s.data.isEmpty
    · simp [parseSFDate, he]
    · simp [parseSFDate, he, hf, hdp]
  · intro hc hp
    simp only [formatSqlValue, hc, if_true]
    rw [hp]

/-- C2 witness: at the concrete unparseable input "x" on the date column
effective_start_date, the formatter emits NULL. -/
theorem c2_unparseable_null_witness :
    formatSqlValue (fun _ => none) (.vStr "x") "effective_start_date"
      "oracle" = .ok "NULL" :=
  (c2_unparseable_null (fun _ => none) "x" "effective_start_date"
    "oracle").2.2.2 (by rfl) (by rfl)

/-- C6: transformRecord returns a record whose keys are exactly the
destination columns of the field mapping in its iteration order, whatever
keys the input had; entry i holds the input's value at the i-th mapped API
field when that key is present (an explicit null included), and null when
absent. The function is a total Lean function, hence pure and never
failing. -/
theorem c6_transformRecord_shape (r : ApiRecord) :
    (transformRecord r).map Prod.fst = fieldMapping.map Prod.snd
    ∧ ∀ i : Nat, (transformRecord r).get? i =
        (fieldMapping.get? i).map fun p =>
          (p.2, (jsLookup r p.1).getD Value.vNull) := by
  constructor
  · rfl
  · intro i
    simp [transformRecord, List.get?_map]

/-- C7: for fixed date-range arguments, dialect and department filter, the
header is a fixed prefix (ending in the "-- Generated: " label), then the
generation instant, then a fixed suffix; hence two invocations at different
generation instants differ only in the embedded generation-timestamp line. -/
theorem c7_header_timestamp_only (now1 now2 : String) (sd ed : Option String)
    (db f : String) :
    generateSqlHeader now1 sd ed db f
        = hdrBefore db ++ now1 ++ hdrAfter sd ed db f
      ∧ generateSqlHeader now2 sd ed db f
        = hdrBefore db ++ now2 ++ hdrAfter sd ed db f := by
  constructor <;>
    simp [generateSqlHeader, hdrBefore, hdrAfter, String.append_assoc]

/-- C9: generateInsertIfNotExists produces the Postgres conflict-skip
statement exactly when the dialect tag is the string "postgres"; every
other tag, including unrecognized ones and the source's omitted default
"oracle", yields the Oracle MERGE result rather than an error. The Oracle
and Postgres statements can never coincide (one starts with MERGE, the
other with INSERT), so the dispatch is exact. -/
theorem c9_dialect_dispatch (dp : String → Option Int) (r : ApiRecord)
    (d : String) :
    (d = "postgres" →
        generateInsertIfNotExists dp r d = generatePostgresInsert dp r)
    ∧ (d ≠ "postgres" →
        generateInsertIfNotExists dp r d = generateOracleInsert dp r)
    ∧ ∀ so sp, generateOracleInsert dp r = .ok so →
        generatePostgresInsert dp r = .ok sp → so ≠ sp := by
  refine ⟨?_, ?_, ?_⟩
  · intro hd
    simp [generateInsertIfNotExists, hd]
  · intro hd
    simp [generateInsertIfNotExists, hd]
  · intro so sp ho hp heq
    have hM : so.data.head? = some 'M' := by
      rcases hov : oracleValues dp r with e | vals <;>
        simp only [generateOracleInsert, hov] at ho
      · cases ho
      · have hso := Except.ok.inj ho
        rw [← hso, str_data_append]
        exact head?_append_some rfl
    have hI : sp.data.head? = some 'I' := by
      rcases hpv : postgresValues dp r with e | vals <;>
        simp only [generatePostgresInsert, hpv] at hp
      · cases hp
      · have hsp := Except.ok.inj hp
        rw [← hsp, str_data_append]
        exact head?_append_some rfl
    rw [heq] at hM
    rw [hM] at hI
    cases hI

/-- C9 witness: an unrecognized dialect tag takes the Oracle branch at a
concrete record. -/
theorem c9_dialect_dispatch_witness :
    generateInsertIfNotExists (fun _ => none) [] "mysql"
      = generateOracleInsert (fun _ => none) [] :=
  (c9_dialect_dispatch (fun _ => none) [] "mysql").2.1 (by decide)

/-- C5: both dialect generators compute the same destination-column list,
equal to the field mapping's values in iteration order; on success the
formatted values list of each dialect has the same length as the column
list, with the value at index i formatted from the transformed record at
the column of index i; and every generated statement embeds exactly that
column list and values list. -/
theorem c5_columns_invariant (dp : String → Option Int) (r : ApiRecord) :
    oracleInsertColumns = fieldMapping.map Prod.snd
    ∧ postgresInsertColumns = oracleInsertColumns
    ∧ (∀ vals, oracleValues dp r = .ok vals →
        vals.length = oracleInsertColumns.length
        ∧ ∀ i col, oracleInsertColumns.get? i = some col →
            ∃ v, vals.get? i = some v
              ∧ formatSqlValue dp (dbGet (transformRecord r) col) col
                  "oracle" = .ok v)
    ∧ (∀ vals, postgresValues dp r = .ok vals →
        vals.length = postgresInsertColumns.length
        ∧ ∀ i col, postgresInsertColumns.get? i = some col →
            ∃ v, vals.get? i = some v
              ∧ formatSqlValue dp (dbGet (transformRecord r) col) col
                  "postgres" = .ok v)
    ∧ (∀ s, generateOracleInsert dp r = .ok s →
        ∃ vals, oracleValues dp r = .ok vals ∧
          s = "MERGE INTO job_sf_position target\nUSING (SELECT '"
            ++ jsInterp (escapeSqlString (dbGet (transformRecord r) "code"))
            ++ "' AS code FROM dual) source\nON (target.code = source.code)\nWHEN NOT MATCHED THEN\n    INSERT ("
            ++ String.intercalate ", " oracleInsertColumns
            ++ ")\n    VALUES ("
            ++ String.intercalate ", " vals
            ++ ");")
    ∧ (∀ s, generatePostgresInsert dp r = .ok s →
        ∃ vals, postgresValues dp r = .ok vals ∧
          s = "INSERT INTO job_sf_position ("
            ++ String.intercalate ", " postgresInsertColumns
            ++ ")\nVALUES ("
            ++ String.intercalate ", " vals
            ++ ")\nON CONFLICT (code) DO NOTHING;") := by
  refine ⟨rfl, rfl, ?_, ?_, ?_, ?_⟩
  · intro vals hv
    refine ⟨exMapM_ok_length _ _ _ hv, ?_⟩
    intro i col hcol
    exact exMapM_ok_get _ _ _ hv i col hcol
  · intro vals hv
    refine ⟨exMapM_ok_length _ _ _ hv, ?_⟩
    intro i col hcol
    exact exMapM_ok_get _ _ _ hv i col hcol
  · intro s hs
    rcases hov : oracleValues dp r with e | vals <;>
      simp only [generateOracleInsert, hov] at hs
    · cases hs
    · exact ⟨vals, rfl, (Except.ok.inj hs).symm⟩
  · intro s hs
    rcases hpv : postgresValues dp r with e | vals <;>
      simp only [generatePostgresInsert, hpv] at hs
    · cases hs
    · exact ⟨vals, rfl, (Except.ok.inj hs).symm⟩

/-- C5 witness: on the empty record every column formats to NULL and the
values list has the column list's length. -/
theorem c5_columns_invariant_witness :
    (List.replicate 21 "NULL").length = oracleInsertColumns.length :=
  ((c5_columns_invariant (fun _ => none) []).2.2.1
    (List.replicate 21 "NULL") (by rfl)).1

/-- One unfolding of the pagination loop on a successful fetch whose page
the department filter handles without throwing. -/
theorem syncLoop_step (fetch : Nat → Except String (List ApiRecord))
    (ps : Nat) (dept : String) (fuel skip : Nat) (reqs : List Nat)
    (totF totFilt : Nat) (acc p fl : List ApiRecord)
    (hf : fetch skip = .ok p)
    (hfil : filterByDepartment p dept = .ok fl) :
    syncLoop fetch ps dept (fuel + 1) skip reqs totF totFilt acc =
      if p.length < ps then
        some (.ok ⟨reqs ++ [skip], totF + p.length, totFilt + fl.length,
          acc ++ fl⟩)
      else syncLoop fetch ps dept fuel (skip + ps) (reqs ++ [skip])
        (totF + p.length) (totFilt + fl.length) (acc ++ fl) := by
  simp only [syncLoop, hf, hfil]

/-- C3 (corrected): over an API stream delivering pages of sizes N, N, N, k
with k < N, provided the department filter handles each delivered page
without throwing (which holds whenever every record's department value is a
string, null, the number 0, or absent), the pagination loop issues exactly
four page requests at offsets 0, N, 2N and 3N, accumulates 3N + k fetched
records in total, and terminates exactly on the page that is strictly
shorter than the page size. Without that proviso the claim fails: a nonzero
numeric department value makes the filter throw a TypeError and abort the
sync after the first request (see the counterexample). -/
theorem c3_pagination_termination
    (fetch : Nat → Except String (List ApiRecord)) (pageSize k : Nat)
    (dept : String) (p0 p1 p2 p3 f0 f1 f2 f3 : List ApiRecord) (fuel : Nat)
    (h0 : fetch 0 = .ok p0) (hl0 : p0.length = pageSize)
    (hf0 : filterByDepartment p0 dept = .ok f0)
    (h1 : fetch pageSize = .ok p1) (hl1 : p1.length = pageSize)
    (hf1 : filterByDepartment p1 dept = .ok f1)
    (h2 : fetch (2 * pageSize) = .ok p2) (hl2 : p2.length = pageSize)
    (hf2 : filterByDepartment p2 dept = .ok f2)
    (h3 : fetch (3 * pageSize) = .ok p3) (hl3 : p3.length = k)
    (hf3 : filterByDepartment p3 dept = .ok f3)
    (hk : k < pageSize) (hfuel : 4 ≤ fuel) :
    syncLoop fetch pageSize dept fuel 0 [] 0 0 [] = some (.ok
      ⟨[0, pageSize, 2 * pageSize, 3 * pageSize],
       3 * pageSize + k,
       f0.length + f1.length + f2.length + f3.length,
       f0 ++ f1 ++ f2 ++ f3⟩) := by
  have e1 : 0 + pageSize = pageSize := by omega
  have e2 : pageSize + pageSize = 2 * pageSize := by omega
  have e3 : 2 * pageSize + pageSize = 3 * pageSize := by omega
  obtain ⟨f, rfl⟩ : ∃ f, fuel = f + 4 := ⟨fuel - 4, by omega⟩
  rw [show f + 4 = f + 3 + 1 from rfl,
    syncLoop_step _ _ _ _ _ _ _ _ _ _ _ h0 hf0, hl0,
    if_neg (Nat.lt_irrefl pageSize), e1,
    show f + 3 = f + 2 + 1 from rfl,
    syncLoop_step _ _ _ _ _ _ _ _ _ _ _ h1 hf1, hl1,
    if_neg (Nat.lt_irrefl pageSize), e2,
    show f + 2 = f + 1 + 1 from rfl,
    syncLoop_step _ _ _ _ _ _ _ _ _ _ _ h2 hf2, hl2,
    if_neg (Nat.lt_irrefl pageSize), e3,
    show f + 1 = f + 0 + 1 from rfl,
    syncLoop_step _ _ _ _ _ _ _ _ _ _ _ h3 hf3, hl3,
    if_pos hk]
  simp [List.append_assoc, Nat.add_assoc]

/-- C3 witness: four pages of sizes 1, 1, 1, 0 delivered by a concrete
fetch function, every record's department absent so the filter succeeds. -/
theorem c3_pagination_termination_witness :
    syncLoop (fun sk => if sk < 3 then .ok [([] : ApiRecord)] else .ok [])
        1 "" 4 0 [] 0 0 [] = some (.ok
      ⟨[0, 1, 2 * 1, 3 * 1],
       3 * 1 + 0,
       ([([] : ApiRecord)]).length + ([([] : ApiRecord)]).length
         + ([([] : ApiRecord)]).length + ([] : List ApiRecord).length,
       [([] : ApiRecord)] ++ [([] : ApiRecord)] ++ [([] : ApiRecord)]
         ++ ([] : List ApiRecord)⟩) :=
  c3_pagination_termination
    (fun sk => if sk < 3 then .ok [([] : ApiRecord)] else .ok []) 1 0 ""
    [([] : ApiRecord)] [([] : ApiRecord)] [([] : ApiRecord)] []
    [([] : ApiRecord)] [([] : ApiRecord)] [([] : ApiRecord)] [] 4
    rfl rfl rfl rfl rfl rfl rfl rfl rfl rfl rfl rfl (by decide) (by decide)

/-- C3 counterexample: a stream delivering pages of sizes 1, 1, 1, 0 whose
first page's record carries the numeric department 7. The source's filter
computes pos.department || "", which keeps the truthy number, and the
.startsWith call on it throws a TypeError, so the sync aborts after a
single page request instead of issuing four requests and accumulating
3N + k records: the claim as stated fails for this stream. -/
theorem c3_pagination_counterexample :
    syncLoop
        (fun sk => if sk < 3 then .ok [[("department", Value.vNum 7)]]
          else .ok [])
        1 "" 4 0 [] 0 0 []
      = some (.error "TypeError: department.startsWith is not a function") := by
  rfl

/-- C4: a page request whose first two attempts fail with retryable errors
and whose third succeeds issues exactly three requests, all at the same
(top, skip) pagination position, and performs exactly two backoff waits of
retryDelay * 2 ^ 0 and retryDelay * 2 ^ 1 time units (the second twice the
first), with the default attempt ceiling of 3. -/
theorem c4_retry_backoff (attempts : Nat → Except JsError ApiResponse)
    (retryDelay top skip : Nat) (er1 er2 : JsError) (resp : ApiResponse)
    (h1 : attempts 1 = .error er1) (hr1 : isRetryable er1 = true)
    (h2 : attempts 2 = .error er2) (hr2 : isRetryable er2 = true)
    (h3 : attempts 3 = .ok resp) :
    fetchPositions attempts 3 retryDelay top skip =
      (⟨[(top, skip), (top, skip), (top, skip)],
        [retryDelay, retryDelay * 2]⟩, .ok (extractResults resp)) := by
  unfold fetchPositions
  rw [fetchGo, dif_neg (by omega)]
  simp only [h1]
  rw [dif_pos ⟨hr1, by omega⟩]
  rw [fetchGo, dif_neg (by omega)]
  simp only [h2]
  rw [dif_pos ⟨hr2, by omega⟩]
  rw [fetchGo, dif_neg (by omega)]
  simp only [h3]
  simp

/-- C4 witness: a concrete attempts oracle failing twice with a timeout then
succeeding with an empty-envelope response. -/
theorem c4_retry_backoff_witness :
    fetchPositions
        (fun k => if k = 3 then .ok ⟨none⟩
          else .error ⟨some "ETIMEDOUT", none, "timeout"⟩) 3 1000 50 200 =
      (⟨[(50, 200), (50, 200), (50, 200)], [1000, 1000 * 2]⟩,
        .ok (extractResults ⟨none⟩)) :=
  c4_retry_backoff
    (fun k => if k = 3 then .ok ⟨none⟩
      else .error ⟨some "ETIMEDOUT", none, "timeout"⟩)
    1000 50 200 ⟨some "ETIMEDOUT", none, "timeout"⟩
    ⟨some "ETIMEDOUT", none, "timeout"⟩ ⟨none⟩ rfl (by decide) rfl (by decide)
    rfl

/-- C10: a successful response whose body lacks the results envelope
(missing data, missing d, or missing results) makes fetchPositions return
the empty array after a single request rather than fail; and the
orchestrator's loop, on receiving an empty page, terminates immediately
with that page counted as the final short page. -/
theorem c10_missing_envelope (attempts : Nat → Except JsError ApiResponse)
    (retryDelay top skip : Nat) (resp : ApiResponse)
    (h1 : attempts 1 = .ok resp)
    (h2 : resp.data = none
        ∨ (∃ dd, resp.data = some dd ∧ dd.d = none)
        ∨ (∃ dd d2, resp.data = some dd ∧ dd.d = some d2
            ∧ d2.results = none)) :
    fetchPositions attempts 3 retryDelay top skip
        = (⟨[(top, skip)], []⟩, .ok [])
      ∧ ∀ (fetch : Nat → Except String (List ApiRecord)) (ps : Nat)
          (dept : String) (fuel sk : Nat) (reqs : List Nat)
          (tf tflt : Nat) (acc : List ApiRecord),
          fetch sk = .ok [] → 0 < ps →
          syncLoop fetch ps dept (fuel + 1) sk reqs tf tflt acc
            = some (.ok ⟨reqs ++ [sk], tf, tflt, acc⟩) := by
  have hex : extractResults resp = [] := by
    rcases h2 with ha | ⟨dd, hdd, hd⟩ | ⟨dd, d2, hdd, hd, hres⟩
    · simp [extractResults, ha]
    · simp [extractResults, hdd, hd]
    · simp [extractResults, hdd, hd, hres]
  constructor
  · unfold fetchPositions
    rw [fetchGo, dif_neg (by omega)]
    simp only [h1]
    simp [hex]
  · intro fetch ps dept fuel sk reqs tf tflt acc hf hps
    rw [syncLoop_step _ _ _ _ _ _ _ _ _ _ _ hf rfl]
    simp [hps]

/-- C10 witness: a response with a missing data body yields the empty page
and the loop stops after one request. -/
theorem c10_missing_envelope_witness :
    fetchPositions (fun _ => .ok ⟨none⟩) 3 1000 50 200
      = (⟨[(50, 200)], []⟩, .ok []) :=
  (c10_missing_envelope (fun _ => .ok ⟨none⟩) 1000 50 200 ⟨none⟩ rfl
    (Or.inl rfl)).1

/-- C8: a fatal fetch error surfacing from the pagination loop makes
syncPositions propagate that error with no file written for the run; and
whenever any file write happened at all, the pagination loop had completed
successfully over the full result set first. -/
theorem c8_fatal_no_writes (dp : String → Option Int)
    (fetch : Nat → Except String (List ApiRecord)) (ps : Nat)
    (dept outFile now ts : String) (sd ed : Option String) (fuel : Nat) :
    (∀ e, syncLoop fetch ps dept fuel 0 [] 0 0 [] = some (.error e) →
        syncPositions dp fetch ps dept outFile now ts sd ed fuel
          = ([], some (.error e)))
    ∧ ((syncPositions dp fetch ps dept outFile now ts sd ed fuel).1 ≠ [] →
        ∃ out, syncLoop fetch ps dept fuel 0 [] 0 0 [] = some (.ok out)) := by
  constructor
  · intro e he
    simp [syncPositions, he]
  · intro hw
    rcases hl : syncLoop fetch ps dept fuel 0 [] 0 0 [] with _ | er
    · simp [syncPositions, hl] at hw
    · rcases er with e | out
      · simp [syncPositions, hl] at hw
      · exact ⟨out, rfl⟩

/-- C8 witness: with a fetch that always fails, the sync aborts with the
error and performs no file write. -/
theorem c8_fatal_no_writes_witness :
    syncPositions (fun _ => none) (fun _ => .error "boom") 5 "" "o.sql"
      "now" "ts" none none 1 = ([], some (.error "boom")) :=
  (c8_fatal_no_writes (fun _ => none) (fun _ => .error "boom") 5 "" "o.sql"
    "now" "ts" none none 1).1 "boom" rfl

end SFSync
